import Mathlib

/-!
Shallow embedding of the two programs of this repository:

* `src/lab/src/main.rs` — a command-line integer-summing tool
  (`parse_args`, `parse_command`, `main`), and
* `src/src/guess_game.rs` — a console number-guessing game.

Strings are modelled as Lean `String` / `List Char`; Rust's fallible
`str::parse::<i32>` / `str::parse::<u32>` (the `FromStr` integer parsers)
are modelled as `Option`-returning functions; `Result<T, String>` is
modelled as `Except String T`.
-/

namespace Spec2Proof

/-! ## Rust integer literal parsing (`str::parse`) -/

/-- The minimal value of Rust's `i32`. -/
def I32_MIN : Int := -(2 ^ 31)

/-- The maximal value of Rust's `i32`. -/
def I32_MAX : Int := 2 ^ 31 - 1

/-- The maximal value of Rust's `u32`. -/
def U32_MAX : Nat := 2 ^ 32 - 1

/-- The decimal-digit accumulation step used by Rust's `from_str_radix`
with radix 10: shift the accumulator and add the digit value of the
ASCII character. -/
def step10 (a : Nat) (c : Char) : Nat := a * 10 + (c.toNat - 48)

/-- Parse a nonempty run of ASCII decimal digits to its value, as Rust's
`from_str_radix(digits, 10)` does after the sign has been stripped:
the run must be nonempty and every character must be an ASCII digit
`0`-`9`; the value is the left fold of `step10`.  (Rust detects overflow
during accumulation; the width check is done by the callers below, which
accept exactly the same inputs.) -/
def parseNat (cs : List Char) : Option Nat :=
  if cs.isEmpty || !(cs.all Char.isDigit) then none
  else some (cs.foldl step10 0)

/-- Digit run plus the `i32` range check, for a sign already stripped
from the front of the token (`sign` is `1` or `-1`). -/
def parse_i32_core (sign : Int) (ds : List Char) : Option Int :=
  match parseNat ds with
  | some n =>
    let v : Int := sign * (n : Int)
    if I32_MIN ≤ v ∧ v ≤ I32_MAX then some v else none
  | none => none

/-- Rust's `str::parse::<i32>()`: an optional leading `+` or `-` sign
followed by a nonempty run of ASCII decimal digits, with the value
required to fit in `i32`; anything else is a parse error (`none`). -/
def parse_i32 (cs : List Char) : Option Int :=
  match cs with
  | [] => none
  | c :: rest =>
    if c = '+' then parse_i32_core 1 rest
    else if c = '-' then parse_i32_core (-1) rest
    else parse_i32_core 1 (c :: rest)

/-- Digit run plus the `u32` range check. -/
def parse_u32_core (ds : List Char) : Option Nat :=
  match parseNat ds with
  | some n => if n ≤ U32_MAX then some n else none
  | none => none

/-- Rust's `str::parse::<u32>()`: an optional leading `+` sign followed
by a nonempty run of ASCII decimal digits fitting in `u32`.  A leading
`-` falls through to the digit run, where it is rejected as a non-digit,
exactly as in Rust's unsigned `from_str_radix`. -/
def parse_u32 (cs : List Char) : Option Nat :=
  match cs with
  | [] => none
  | c :: rest =>
    if c = '+' then parse_u32_core rest
    else parse_u32_core (c :: rest)

/-! ## The summing tool, `src/lab/src/main.rs` -/

/-- The `Command` enum of `src/lab/src/main.rs`. -/
inductive Command where
  | Add : List Int → Command
  | List : Command
  | Quit : Command
deriving DecidableEq, Repr

/-- Rust's `str::to_lowercase` restricted to its ASCII action, which is
all the command verbs exercise: every ASCII uppercase letter is mapped
to its lowercase counterpart (`Char.toLower`), other characters are kept. -/
def toLowercase (s : String) : String := String.mk (s.data.map Char.toLower)

/-- The `raw[1..].iter().map(parse ∘ map_err).collect::<Result<Vec<_>,_>>()`
pipeline of `parse_command`'s `add` arm: parse every piece as `i32`,
short-circuiting on the first failure with `bad number: <piece>`. -/
def parseAddNumbers : List String → Except String (List Int)
  | [] => Except.ok []
  | piece :: rest =>
    match parse_i32 piece.data with
    | some v =>
      match parseAddNumbers rest with
      | Except.ok ns => Except.ok (v :: ns)
      | Except.error e => Except.error e
    | none => Except.error ("bad number: " ++ piece)

/-- `parse_command` of `src/lab/src/main.rs`: dispatch on the lowercased
first token. -/
def parse_command (raw : List String) : Except String Command :=
  match raw with
  | [] => Except.error "no input provided"
  | first :: rest =>
    let verb := toLowercase first
    if verb = "add" then
      if rest.isEmpty then Except.error "add needs at least one number"
      else
        match parseAddNumbers rest with
        | Except.ok ns => Except.ok (Command.Add ns)
        | Except.error e => Except.error e
    else if verb = "list" then Except.ok Command.List
    else if verb = "quit" then Except.ok Command.Quit
    else Except.error ("unknown command: " ++ verb)

/-- `parse_args` of `src/lab/src/main.rs`: parse every argument as an
`i32` in order, returning on the first failure with
`Could not parse '<arg>' as an integer`. -/
def parse_args : List String → Except String (List Int)
  | [] => Except.ok []
  | arg :: rest =>
    match parse_i32 arg.data with
    | some v =>
      match parse_args rest with
      | Except.ok ns => Except.ok (v :: ns)
      | Except.error e => Except.error e
    | none => Except.error ("Could not parse '" ++ arg ++ "' as an integer")

/-- Wrap an integer into the `i32` range, the release-mode semantics of
`i32` addition (debug builds abort on overflow; the spec leaves the
policy open and none of the claims exercise overflow). -/
def wrap_i32 (n : Int) : Int := (n + 2 ^ 31) % 2 ^ 32 - 2 ^ 31

/-- `numbers.iter().sum::<i32>()`: fold `i32` addition over the list. -/
def i32_sum (ns : List Int) : Int := ns.foldl (fun a b => wrap_i32 (a + b)) 0

/-! ### Rendering integers as decimal text (Rust `Display` for `i32`) -/

/-- The ASCII character of a decimal digit value. -/
def digitChar (d : Nat) : Char := Char.ofNat (d + 48)

/-- Little-endian decimal digit values of a natural number, with an
explicit structural fuel so the definition reduces by `rfl`; `fuel = n`
always suffices because the value shrinks by a factor of ten each step. -/
def natDigitsRevFuel : Nat → Nat → List Nat
  | 0, _ => []
  | _ + 1, 0 => []
  | fuel + 1, n + 1 => ((n + 1) % 10) :: natDigitsRevFuel fuel ((n + 1) / 10)

/-- The decimal digit characters of a natural number, most significant
first; `0` renders as `"0"`. -/
def natToChars (n : Nat) : List Char :=
  if n = 0 then ['0'] else ((natDigitsRevFuel n n).reverse).map digitChar

/-- Rust's `Display` for `i32` (as used by `format!("Total: {total}")`):
a `-` sign for negatives followed by the decimal digits, no leading
zeros. -/
def renderIntChars (n : Int) : List Char :=
  if n < 0 then '-' :: natToChars n.natAbs else natToChars n.toNat

/-- `renderIntChars` packaged as a `String`. -/
def renderInt (n : Int) : String := String.mk (renderIntChars n)

/-- Observable outcome of one run of the summing tool's `main`:
its exit code and the lines written to stdout and stderr. -/
structure MainResult where
  exitCode : Nat
  stdout : List String
  stderr : List String
deriving DecidableEq, Repr

/-- `main` of `src/lab/src/main.rs` on an already-collected argument
list (`env::args().skip(1)`): on success print `Total: <sum>` to stdout
and exit 0, on failure print `Error: <message>` to stderr and exit 1. -/
def sum_main (args : List String) : MainResult :=
  match parse_args args with
  | Except.ok nums =>
    { exitCode := 0
      stdout := ["Total: " ++ renderInt (i32_sum nums)]
      stderr := [] }
  | Except.error message =>
    { exitCode := 1
      stdout := []
      stderr := ["Error: " ++ message] }

/-! ## The guessing game, `src/src/guess_game.rs` -/

/-- Rust's `str::trim` restricted to ASCII whitespace (the game's input
lines only carry spaces and the trailing newline of `read_line`):
drop whitespace from both ends. -/
def rustTrim (cs : List Char) : List Char :=
  ((cs.dropWhile Char.isWhitespace).reverse.dropWhile Char.isWhitespace).reverse

/-- One evaluation of `guess.cmp(&secret_number)`: the feedback line
printed and whether the loop breaks (`Ordering::Equal`). -/
def guessStep (secret g : Nat) : String × Bool :=
  if g < secret then ("Too small", false)
  else if secret < g then ("Too big", false)
  else ("You win!", true)

/-- The guess loop of `src/src/guess_game.rs`, run against a list of
input lines: for each consumed line, record the comparison feedback
printed for it (`none` when the line fails to parse and the loop
silently continues), and stop after the winning line.  The prompt lines
`input your number.` and `You guess: <n>` are part of the transcript but
carry no information about the comparison; the result records the
feedback per consumed line and the number of lines consumed. -/
def guessLoop (secret : Nat) : List String → List (Option String) × Nat
  | [] => ([], 0)
  | line :: rest =>
    match parse_u32 (rustTrim line.data) with
    | none =>
      let r := guessLoop secret rest
      (none :: r.1, r.2 + 1)
    | some g =>
      let s := guessStep secret g
      if s.2 then ([some s.1], 1)
      else
        let r := guessLoop secret rest
        (some s.1 :: r.1, r.2 + 1)

/-- Modelled from the spec: `rand::thread_rng().gen_range(lo..hi)` —
the `rand` crate is external to this repository.  The spec's contract is
"produce one signed integer uniformly distributed over the inclusive
range 1 to 100", i.e. a value in the half-open range `lo..hi`.  We model
the RNG draw as an arbitrary seed and `gen_range` as `lo + seed % (hi
- lo)`, which covers exactly `[lo, hi)`. -/
def gen_range (lo hi seed : Nat) : Nat := lo + seed % (hi - lo)

/-- The game's secret: `rand::thread_rng().gen_range(1..101)`, computed
once before the loop starts. -/
def secret_number (seed : Nat) : Nat := gen_range 1 101 seed

/-- `main` of `src/src/guess_game.rs` on a list of input lines: generate
the secret once, then run the guess loop with that fixed secret.  The
secret is a plain immutable parameter of `guessLoop`, so it cannot
change during the loop. -/
def guess_main (seed : Nat) (inputs : List String) : List (Option String) × Nat :=
  guessLoop (secret_number seed) inputs

/-! ## Helper lemmas: decimal digits and round-trips -/

theorem digitChar_toNat (d : Nat) (hd : d < 10) : (digitChar d).toNat = d + 48 := by
  interval_cases d <;> decide

theorem digitChar_isDigit (d : Nat) (hd : d < 10) : (digitChar d).isDigit = true := by
  interval_cases d <;> decide

theorem mem_natDigitsRevFuel_lt :
    ∀ (fuel n d : Nat), d ∈ natDigitsRevFuel fuel n → d < 10 := by
  intro fuel
  induction fuel with
  | zero => intro n d h; simp [natDigitsRevFuel] at h
  | succ fuel ih =>
    intro n d h
    match n with
    | 0 => simp [natDigitsRevFuel] at h
    | m + 1 =>
      simp only [natDigitsRevFuel, List.mem_cons] at h
      rcases h with h1 | h2
      · subst h1; exact Nat.mod_lt _ (by norm_num)
      · exact ih _ _ h2

theorem foldl_step10_digits :
    ∀ (fuel n : Nat), n ≤ fuel → ∀ a : Nat,
      (((natDigitsRevFuel fuel n).reverse).map digitChar).foldl step10 a
        = a * 10 ^ (natDigitsRevFuel fuel n).length + n := by
  intro fuel
  induction fuel with
  | zero =>
    intro n hn a
    interval_cases n
    simp [natDigitsRevFuel]
  | succ fuel ih =>
    intro n hn a
    match n with
    | 0 => simp [natDigitsRevFuel]
    | m + 1 =>
      have hdivlt : (m + 1) / 10 < m + 1 := Nat.div_lt_self (Nat.succ_pos m) (by norm_num)
      have hdiv : (m + 1) / 10 ≤ fuel := by omega
      have hmod : (m + 1) % 10 < 10 := Nat.mod_lt _ (by norm_num)
      simp only [natDigitsRevFuel, List.reverse_cons, List.map_append, List.foldl_append,
        List.length_cons]
      rw [ih _ hdiv a]
      simp only [List.map_cons, List.map_nil, List.foldl_cons, List.foldl_nil]
      unfold step10
      rw [digitChar_toNat _ hmod, Nat.add_sub_cancel, pow_succ]
      calc (a * 10 ^ (natDigitsRevFuel fuel ((m + 1) / 10)).length + (m + 1) / 10) * 10
              + (m + 1) % 10
          = a * (10 ^ (natDigitsRevFuel fuel ((m + 1) / 10)).length * 10)
              + ((m + 1) / 10 * 10 + (m + 1) % 10) := by ring
        _ = a * (10 ^ (natDigitsRevFuel fuel ((m + 1) / 10)).length * 10) + (m + 1) := by
              congr 1
              omega

theorem natToChars_ne_nil (n : Nat) : natToChars n ≠ [] := by
  unfold natToChars
  split
  · simp
  · rename_i h
    obtain ⟨m, rfl⟩ : ∃ m, n = m + 1 := ⟨n - 1, by omega⟩
    simp [natDigitsRevFuel]

theorem natToChars_all_digits (n : Nat) : (natToChars n).all Char.isDigit = true := by
  unfold natToChars
  split
  · decide
  · rw [List.all_eq_true]
    intro c hc
    rw [List.mem_map] at hc
    obtain ⟨d, hd, rfl⟩ := hc
    exact digitChar_isDigit _ (mem_natDigitsRevFuel_lt _ _ _ (List.mem_reverse.mp hd))

theorem foldl_natToChars (n : Nat) : (natToChars n).foldl step10 0 = n := by
  by_cases h : n = 0
  · subst h; decide
  · unfold natToChars
    rw [if_neg h, foldl_step10_digits n n le_rfl 0]
    simp

theorem parseNat_natToChars (n : Nat) : parseNat (natToChars n) = some n := by
  have h1 : (natToChars n).isEmpty = false := by
    cases hl : natToChars n with
    | nil => exact absurd hl (natToChars_ne_nil n)
    | cons c t => rfl
  unfold parseNat
  rw [h1, natToChars_all_digits n]
  simp [foldl_natToChars n]

theorem natToChars_head_not_sign (n : Nat) (c : Char) (t : List Char)
    (h : natToChars n = c :: t) : c ≠ '+' ∧ c ≠ '-' := by
  have hall := natToChars_all_digits n
  rw [h, List.all_cons] at hall
  have hc : c.isDigit = true := by
    cases hdig : c.isDigit
    · rw [hdig] at hall; simp at hall
    · rfl
  constructor <;> rintro rfl <;> exact absurd hc (by decide)

theorem parse_i32_core_natToChars (sign : Int) (n : Nat) :
    parse_i32_core sign (natToChars n) =
      if I32_MIN ≤ sign * (n : Int) ∧ sign * (n : Int) ≤ I32_MAX
      then some (sign * (n : Int)) else none := by
  simp [parse_i32_core, parseNat_natToChars]

theorem parse_i32_cons_not_sign (c : Char) (l : List Char) (h1 : c ≠ '+') (h2 : c ≠ '-') :
    parse_i32 (c :: l) = parse_i32_core 1 (c :: l) := by
  simp [parse_i32, h1, h2]

theorem parse_i32_neg_cons (l : List Char) :
    parse_i32 ('-' :: l) = parse_i32_core (-1) l := by
  simp [parse_i32]

theorem parse_i32_renderIntChars (n : Int) :
    parse_i32 (renderIntChars n) =
      if I32_MIN ≤ n ∧ n ≤ I32_MAX then some n else none := by
  unfold renderIntChars
  by_cases hn : n < 0
  · rw [if_pos hn, parse_i32_neg_cons, parse_i32_core_natToChars]
    have habs : ((n.natAbs : Nat) : Int) = -n := by omega
    rw [habs]
    norm_num
  · rw [if_neg hn]
    obtain ⟨c, t, hct⟩ := List.exists_cons_of_ne_nil (natToChars_ne_nil n.toNat)
    obtain ⟨hplus, hminus⟩ := natToChars_head_not_sign _ _ _ hct
    rw [hct, parse_i32_cons_not_sign c t hplus hminus, ← hct, parse_i32_core_natToChars]
    have hcast : ((n.toNat : Nat) : Int) = n := by omega
    rw [hcast]
    norm_num

theorem parse_i32_renderInt_of_range (n : Int) (h1 : I32_MIN ≤ n) (h2 : n ≤ I32_MAX) :
    parse_i32 (renderInt n).data = some n := by
  show parse_i32 (renderIntChars n) = some n
  rw [parse_i32_renderIntChars, if_pos ⟨h1, h2⟩]

theorem parse_i32_renderInt_of_out_of_range (n : Int) (h : n < I32_MIN ∨ I32_MAX < n) :
    parse_i32 (renderInt n).data = none := by
  show parse_i32 (renderIntChars n) = none
  rw [parse_i32_renderIntChars, if_neg (by omega)]

/-! ## Helper lemmas: `parse_args` and `parseAddNumbers` -/

theorem parse_args_ok_of_forall :
    ∀ ts : List String, (∀ t ∈ ts, (parse_i32 t.data).isSome) →
      ∃ ns, parse_args ts = Except.ok ns ∧
        ts.map (fun t => parse_i32 t.data) = ns.map some := by
  intro ts
  induction ts with
  | nil => intro _; exact ⟨[], rfl, rfl⟩
  | cons a rest ih =>
    intro h
    obtain ⟨v, hv⟩ := Option.isSome_iff_exists.mp (h a (List.mem_cons_self a rest))
    obtain ⟨ns, hns, hmap⟩ := ih (fun t ht => h t (List.mem_cons_of_mem a ht))
    refine ⟨v :: ns, ?_, ?_⟩
    · simp [parse_args, hv, hns]
    · simp [hv, hmap]

theorem parse_args_ok_map :
    ∀ (ts : List String) (ns : List Int), parse_args ts = Except.ok ns →
      ts.map (fun t => parse_i32 t.data) = ns.map some := by
  intro ts
  induction ts with
  | nil =>
    intro ns h
    simp only [parse_args] at h
    cases h
    rfl
  | cons a rest ih =>
    intro ns h
    cases hv : parse_i32 a.data with
    | none =>
      simp only [parse_args, hv] at h
      exact Except.noConfusion h
    | some v =>
      cases hrest : parse_args rest with
      | error e =>
        simp only [parse_args, hv, hrest] at h
        exact Except.noConfusion h
      | ok ms =>
        simp only [parse_args, hv, hrest] at h
        cases h
        simp [hv, ih _ hrest]

theorem parse_args_first_err :
    ∀ (pre : List String) (t : String) (post : List String),
      (∀ u ∈ pre, (parse_i32 u.data).isSome) → parse_i32 t.data = none →
      parse_args (pre ++ t :: post) =
        Except.error ("Could not parse '" ++ t ++ "' as an integer") := by
  intro pre
  induction pre with
  | nil =>
    intro t post _ ht
    simp [parse_args, ht]
  | cons a rest ih =>
    intro t post h ht
    obtain ⟨v, hv⟩ := Option.isSome_iff_exists.mp (h a (List.mem_cons_self a rest))
    have hrec := ih t post (fun u hu => h u (List.mem_cons_of_mem a hu)) ht
    simp [parse_args, hv, hrec]

theorem parse_args_map_renderInt :
    ∀ ns : List Int, (∀ n ∈ ns, I32_MIN ≤ n ∧ n ≤ I32_MAX) →
      parse_args (ns.map renderInt) = Except.ok ns := by
  intro ns
  induction ns with
  | nil => intro _; rfl
  | cons a rest ih =>
    intro h
    obtain ⟨h1, h2⟩ := h a (List.mem_cons_self a rest)
    have hr := ih (fun n hn => h n (List.mem_cons_of_mem a hn))
    simp [parse_args, parse_i32_renderInt_of_range a h1 h2, hr]

theorem parseAddNumbers_ok_of_forall :
    ∀ ts : List String, (∀ t ∈ ts, (parse_i32 t.data).isSome) →
      ∃ ns, parseAddNumbers ts = Except.ok ns ∧
        ts.map (fun t => parse_i32 t.data) = ns.map some := by
  intro ts
  induction ts with
  | nil => intro _; exact ⟨[], rfl, rfl⟩
  | cons a rest ih =>
    intro h
    obtain ⟨v, hv⟩ := Option.isSome_iff_exists.mp (h a (List.mem_cons_self a rest))
    obtain ⟨ns, hns, hmap⟩ := ih (fun t ht => h t (List.mem_cons_of_mem a ht))
    refine ⟨v :: ns, ?_, ?_⟩
    · simp [parseAddNumbers, hv, hns]
    · simp [hv, hmap]

theorem parseAddNumbers_first_err :
    ∀ (pre : List String) (t : String) (post : List String),
      (∀ u ∈ pre, (parse_i32 u.data).isSome) → parse_i32 t.data = none →
      parseAddNumbers (pre ++ t :: post) = Except.error ("bad number: " ++ t) := by
  intro pre
  induction pre with
  | nil =>
    intro t post _ ht
    simp [parseAddNumbers, ht]
  | cons a rest ih =>
    intro t post h ht
    obtain ⟨v, hv⟩ := Option.isSome_iff_exists.mp (h a (List.mem_cons_self a rest))
    have hrec := ih t post (fun u hu => h u (List.mem_cons_of_mem a hu)) ht
    simp [parseAddNumbers, hv, hrec]

/-! ## Claims -/

/-- C1: on a token sequence in which every token is a valid `i32` literal,
`parse_args` returns `ok` with integers in positional correspondence with
the tokens (hence same length and order); conversely any `ok` result is in
that full correspondence (no partial result); and when the sequence splits
as valid prefix + first invalid token, `parse_args` returns the error
naming exactly that token. -/
theorem claim_C1 (ts : List String) :
    ((∀ t ∈ ts, (parse_i32 t.data).isSome) →
      ∃ ns, parse_args ts = Except.ok ns ∧
        ts.map (fun t => parse_i32 t.data) = ns.map some)
    ∧ (∀ ns, parse_args ts = Except.ok ns →
        ts.map (fun t => parse_i32 t.data) = ns.map some)
    ∧ (∀ (pre : List String) (t : String) (post : List String),
        ts = pre ++ t :: post →
        (∀ u ∈ pre, (parse_i32 u.data).isSome) → parse_i32 t.data = none →
        parse_args ts = Except.error ("Could not parse '" ++ t ++ "' as an integer")) :=
  ⟨parse_args_ok_of_forall ts,
   fun ns h => parse_args_ok_map ts ns h,
   fun pre t post hts hpre ht => hts ▸ parse_args_first_err pre t post hpre ht⟩

/-- C1, witnessed at concrete inputs: an invalid second token and an
all-valid pair. -/
theorem claim_C1_witness :
    parse_args ["10", "x"] = Except.error "Could not parse 'x' as an integer"
    ∧ ∃ ns, parse_args ["10", "-3"] = Except.ok ns ∧
        (["10", "-3"] : List String).map (fun t => parse_i32 t.data) = ns.map some := by
  constructor
  · exact (claim_C1 ["10", "x"]).2.2 ["10"] "x" [] rfl (by decide) (by decide)
  · exact (claim_C1 ["10", "-3"]).1 (by decide)

/-- C2: rendering in-range integers as decimal text, parsing the tokens
back with `parse_args`, and summing gives the same sum as summing the
original integers directly. -/
theorem claim_C2 (ns : List Int) (h : ∀ n ∈ ns, I32_MIN ≤ n ∧ n ≤ I32_MAX) :
    ∃ ms, parse_args (ns.map renderInt) = Except.ok ms ∧ i32_sum ms = i32_sum ns :=
  ⟨ns, parse_args_map_renderInt ns h, rfl⟩

/-- C2, witnessed at the concrete list `[10, -3]`. -/
theorem claim_C2_witness :
    ∃ ms, parse_args ([10, -3].map renderInt) = Except.ok ms ∧
      i32_sum ms = i32_sum [10, -3] :=
  claim_C2 [10, -3] (by decide)

/-- C3: with secret 42 and input lines `10`, `abc`, `90`, `42`, the guess
loop prints `Too small` for `10`, no comparison feedback for `abc`,
`Too big` for `90` and `You win!` for `42`, and terminates having
consumed exactly 4 lines. -/
theorem claim_C3 :
    guessLoop 42 ["10", "abc", "90", "42"] =
      ([some "Too small", none, some "Too big", some "You win!"], 4) := rfl

/-- C4, counterexample: the unknown-verb error echoes the lowercased
verb, not the original-case first token — on input `FOO` the message is
`unknown command: foo`, which differs from `unknown command: FOO`. -/
theorem claim_C4_counterexample :
    parse_command ["FOO"] = Except.error "unknown command: foo" ∧
      "unknown command: foo" ≠ "unknown command: FOO" :=
  ⟨rfl, by decide⟩

/-- C4, amended: for every token sequence whose first token, lowercased,
is not one of the known verbs, `parse_command` fails with
`unknown command: <verb>` where the echoed verb is the lowercased first
token (lowercasing is used both for comparison and in the message). -/
theorem claim_C4 (first : String) (rest : List String)
    (h1 : toLowercase first ≠ "add") (h2 : toLowercase first ≠ "list")
    (h3 : toLowercase first ≠ "quit") :
    parse_command (first :: rest) =
      Except.error ("unknown command: " ++ toLowercase first) := by
  simp [parse_command, h1, h2, h3]

/-- C4, witnessed at the concrete input `["FOO"]`. -/
theorem claim_C4_witness :
    parse_command ["FOO"] = Except.error ("unknown command: " ++ toLowercase "FOO") :=
  claim_C4 "FOO" [] (by decide) (by decide) (by decide)

/-- C5: with first token `add` (case-insensitively), `parse_command`
fails with `add needs at least one number` when nothing follows; with a
first offending token `t` among the remainder it fails with
`bad number: t`; and with all-valid remainder it returns the `Add`
variant holding the parsed integers in input order. -/
theorem claim_C5 (first : String) (rest : List String) (h : toLowercase first = "add") :
    (rest = [] → parse_command (first :: rest) = Except.error "add needs at least one number")
    ∧ (∀ (pre : List String) (t : String) (post : List String),
        rest = pre ++ t :: post →
        (∀ u ∈ pre, (parse_i32 u.data).isSome) → parse_i32 t.data = none →
        parse_command (first :: rest) = Except.error ("bad number: " ++ t))
    ∧ ((∀ t ∈ rest, (parse_i32 t.data).isSome) → rest ≠ [] →
        ∃ ns, parse_command (first :: rest) = Except.ok (Command.Add ns) ∧
          rest.map (fun t => parse_i32 t.data) = ns.map some) := by
  refine ⟨?_, ?_, ?_⟩
  · rintro rfl
    simp [parse_command, h]
  · rintro pre t post rfl hpre ht
    have hne : (pre ++ t :: post).isEmpty = false := by cases pre <;> rfl
    have herr := parseAddNumbers_first_err pre t post hpre ht
    simp [parse_command, h, hne, herr]
  · intro hall hne
    obtain ⟨ns, hns, hmap⟩ := parseAddNumbers_ok_of_forall rest hall
    have hr : rest.isEmpty = false := by
      cases rest
      · exact absurd rfl hne
      · rfl
    exact ⟨ns, by simp [parse_command, h, hr, hns], hmap⟩

/-- C5, witnessed at the concrete inputs `["add"]`, `["add", "x"]` and
`["add", "1", "2"]`. -/
theorem claim_C5_witness :
    parse_command ["add"] = Except.error "add needs at least one number"
    ∧ parse_command ["add", "x"] = Except.error "bad number: x"
    ∧ ∃ ns, parse_command ["add", "1", "2"] = Except.ok (Command.Add ns) ∧
        (["1", "2"] : List String).map (fun t => parse_i32 t.data) = ns.map some := by
  refine ⟨?_, ?_, ?_⟩
  · exact (claim_C5 "add" [] (by decide)).1 rfl
  · exact (claim_C5 "add" ["x"] (by decide)).2.1 [] "x" [] rfl (by decide) (by decide)
  · exact (claim_C5 "add" ["1", "2"] (by decide)).2.2 (by decide) (by decide)

/-- C6: every nonempty token sequence whose first token lowercases to
`list` (respectively `quit`) parses to the `List` (respectively `Quit`)
variant, regardless of any trailing tokens. -/
theorem claim_C6 (first : String) (rest : List String) :
    (toLowercase first = "list" → parse_command (first :: rest) = Except.ok Command.List)
    ∧ (toLowercase first = "quit" → parse_command (first :: rest) = Except.ok Command.Quit) := by
  constructor
  · intro h
    simp [parse_command, h]
  · intro h
    simp [parse_command, h]

/-- C6, witnessed at the concrete inputs `["LIST", "zzz"]` and
`["Quit", "1"]`. -/
theorem claim_C6_witness :
    parse_command ["LIST", "zzz"] = Except.ok Command.List
    ∧ parse_command ["Quit", "1"] = Except.ok Command.Quit :=
  ⟨(claim_C6 "LIST" ["zzz"]).1 (by decide), (claim_C6 "Quit" ["1"]).2 (by decide)⟩

/-- C7: the empty token sequence succeeds with the empty integer list in
`parse_args` (whose sum is 0), but fails with `no input provided` in
`parse_command`. -/
theorem claim_C7 :
    parse_args ([] : List String) = Except.ok []
    ∧ i32_sum [] = 0
    ∧ parse_command ([] : List String) = Except.error "no input provided" :=
  ⟨rfl, rfl, rfl⟩

/-- C8: when every argument parses, the summing tool's `main` exits 0
having printed exactly `Total: <sum>` to stdout; when the arguments
split as valid prefix + first invalid token, it exits 1 having printed
exactly `Error: Could not parse '<token>' as an integer` to stderr. -/
theorem claim_C8 :
    (∀ (args : List String) (ns : List Int), parse_args args = Except.ok ns →
      sum_main args =
        { exitCode := 0, stdout := ["Total: " ++ renderInt (i32_sum ns)], stderr := [] })
    ∧ (∀ (pre : List String) (t : String) (post : List String),
        (∀ u ∈ pre, (parse_i32 u.data).isSome) → parse_i32 t.data = none →
        sum_main (pre ++ t :: post) =
          { exitCode := 1, stdout := []
            stderr := ["Error: " ++ ("Could not parse '" ++ t ++ "' as an integer")] }) := by
  constructor
  · intro args ns h
    simp [sum_main, h]
  · intro pre t post hpre ht
    have herr := parse_args_first_err pre t post hpre ht
    simp [sum_main, herr]

/-- C8, witnessed at the concrete inputs `["10", "-3"]` (success) and
`["nope"]` (failure). -/
theorem claim_C8_witness :
    sum_main ["10", "-3"] = { exitCode := 0, stdout := ["Total: 7"], stderr := [] }
    ∧ sum_main ["nope"] =
        { exitCode := 1, stdout := []
          stderr := ["Error: Could not parse 'nope' as an integer"] } := by
  constructor
  · exact claim_C8.1 ["10", "-3"] [10, -3] (by rfl)
  · exact claim_C8.2 [] "nope" [] (by decide) (by decide)

/-- C9: the guessing game's secret, drawn once before the loop as
`gen_range 1 101` of the seed, always lies in the inclusive range
`[1, 100]`; `guess_main` passes it to `guessLoop` as an immutable
parameter, so it never changes during the loop. -/
theorem claim_C9 (seed : Nat) :
    1 ≤ secret_number seed ∧ secret_number seed ≤ 100 := by
  unfold secret_number gen_range
  have h : seed % (101 - 1) < 101 - 1 := Nat.mod_lt _ (by norm_num)
  omega

/-- C10: rendering any integer strictly outside the `i32` range gives a
token `parse_i32` rejects, so `parse_args` and `parse_command`'s `add`
branch reject it with the same parse errors they give malformed tokens,
while both `i32` boundary values are accepted. -/
theorem claim_C10 :
    (∀ n : Int, I32_MAX < n ∨ n < I32_MIN → parse_i32 (renderInt n).data = none)
    ∧ parse_args ["2147483648"] =
        Except.error "Could not parse '2147483648' as an integer"
    ∧ parse_command ["add", "-2147483649"] = Except.error "bad number: -2147483649"
    ∧ parse_i32 "2147483647".data = some 2147483647
    ∧ parse_i32 "-2147483648".data = some (-2147483648) := by
  refine ⟨?_, rfl, rfl, by decide, by decide⟩
  intro n hn
  exact parse_i32_renderInt_of_out_of_range n (by omega)

/-- C10, witnessed at the two out-of-range values just beyond the `i32`
boundaries. -/
theorem claim_C10_witness :
    parse_i32 (renderInt 2147483648).data = none ∧
      parse_i32 (renderInt (-2147483649)).data = none :=
  ⟨claim_C10.1 2147483648 (by decide), claim_C10.1 (-2147483649) (by decide)⟩

end Spec2Proof
